import Mathlib

/-!
Verification development for the availability generation and rotation engine
of the Omakase-Website repository (`src/backend/shared/systemStateManager.web.js`).

The JavaScript engine is shallowly embedded here:
* JS `Date` values that carry only calendar information (the engine pins the
  time-of-day to a constant and only ever compares, iterates and formats the
  calendar date) are embedded as `YMD` records; JS date comparison becomes
  lexicographic comparison, `setDate(getDate()+1)` becomes `YMD.next`, and
  `toISOString().split('T')[0]` becomes the identity on `YMD`.
* day records, closed periods, season periods and tour records become
  structures whose optional JS fields become `Option` fields;
* the external `wixData` collaborators become explicit function arguments
  (`Except` captures a rejected promise, `Option` a `null` result);
* `Array.prototype.sort` (stable, numeric comparator on the date key) becomes
  `List.mergeSort` with the corresponding `≤` test.
-/

/-- A calendar date: year, month (1-12), day (1-31), mirroring the calendar
component of a JS `Date` (`getFullYear`, `getMonth()+1`, `getDate`). -/
structure YMD where
  year : Nat
  month : Nat
  day : Nat
deriving DecidableEq, Repr

/-- Gregorian leap-year test, as used by JS `Date` calendar arithmetic. -/
def isLeapYear (y : Nat) : Bool :=
  (y % 4 == 0 && y % 100 != 0) || (y % 400 == 0)

/-- Number of days in the given month of the given year. -/
def daysInMonth (y m : Nat) : Nat :=
  if m = 2 then (if isLeapYear y then 29 else 28)
  else if m = 4 ∨ m = 6 ∨ m = 9 ∨ m = 11 then 30
  else 31

/-- Number of days in the given year. -/
def daysInYear (y : Nat) : Nat := if isLeapYear y then 366 else 365

/-- Days in all years before year `y` (proleptic Gregorian, counting from year
0), in closed form: 365 per year plus one per leap year among `0..y-1`
(multiples of 4 minus multiples of 100 plus multiples of 400 below `y`). -/
def daysBeforeYear (y : Nat) : Nat :=
  365 * y + (y + 3) / 4 - (y + 99) / 100 + (y + 399) / 400

theorem isLeapYear_iff (y : Nat) :
    isLeapYear y = true ↔ ((y % 4 = 0 ∧ y % 100 ≠ 0) ∨ y % 400 = 0) := by
  simp [isLeapYear]

set_option maxHeartbeats 2000000 in
/-- The closed form satisfies the defining recursion of the year prefix sum. -/
theorem daysBeforeYear_succ (y : Nat) :
    daysBeforeYear (y + 1) = daysBeforeYear y + daysInYear y := by
  by_cases hc : isLeapYear y = true
  · unfold daysInYear daysBeforeYear
    rw [hc]
    rw [isLeapYear_iff] at hc
    simp only [if_true]
    omega
  · unfold daysInYear daysBeforeYear
    rw [Bool.not_eq_true] at hc
    rw [hc]
    rw [Bool.eq_false_iff, ne_eq, isLeapYear_iff] at hc
    push_neg at hc
    simp only [Bool.false_eq_true, if_false]
    omega

/-- Days in the months of year `y` strictly before month `m` (months are 1-based). -/
def daysBeforeMonth (y : Nat) : Nat → Nat
  | 0 => 0
  | 1 => 0
  | m + 2 => daysBeforeMonth y (m + 1) + daysInMonth y (m + 1)

/-- Linear day number of a date; orders valid dates like the JS `Date` timestamp. -/
def YMD.serial (d : YMD) : Nat :=
  daysBeforeYear d.year + daysBeforeMonth d.year d.month + d.day

/-- A structurally valid calendar date (what `new Date(y, m, d)` yields after
normalisation, and what the engine's ISO date strings denote). -/
def YMD.valid (d : YMD) : Prop :=
  1 ≤ d.month ∧ d.month ≤ 12 ∧ 1 ≤ d.day ∧ d.day ≤ daysInMonth d.year d.month

instance (d : YMD) : Decidable d.valid := by unfold YMD.valid; infer_instance

/-- Date comparison `a <= b`, as JS timestamp comparison behaves on dates that
share their time-of-day: lexicographic on (year, month, day). -/
def YMD.le (a b : YMD) : Bool :=
  decide (a.year < b.year ∨ (a.year = b.year ∧
    (a.month < b.month ∨ (a.month = b.month ∧ a.day ≤ b.day))))

/-- The calendar successor of a date, embedding JS `setDate(getDate() + 1)`. -/
def YMD.next (d : YMD) : YMD :=
  if d.day < daysInMonth d.year d.month then ⟨d.year, d.month, d.day + 1⟩
  else if d.month < 12 then ⟨d.year, d.month + 1, 1⟩
  else ⟨d.year + 1, 1, 1⟩

theorem daysInMonth_pos (y m : Nat) : 1 ≤ daysInMonth y m := by
  unfold daysInMonth
  split <;> [split <;> omega; split <;> omega]

theorem daysInMonth_le (y m : Nat) : daysInMonth y m ≤ 31 := by
  unfold daysInMonth
  split <;> [split <;> omega; split <;> omega]

theorem daysBeforeMonth_succ (y m : Nat) (h : 1 ≤ m) :
    daysBeforeMonth y (m + 1) = daysBeforeMonth y m + daysInMonth y m := by
  match m, h with
  | m + 1, _ => rfl

theorem daysBeforeMonth_thirteen (y : Nat) :
    daysBeforeMonth y 13 = daysInYear y := by
  by_cases h : isLeapYear y = true <;>
    simp [daysBeforeMonth, daysInMonth, daysInYear, h]

theorem daysBeforeMonth_mono (y : Nat) {m m' : Nat} (h1 : 1 ≤ m) (h : m ≤ m') :
    daysBeforeMonth y m ≤ daysBeforeMonth y m' := by
  induction m' with
  | zero => omega
  | succ k ih =>
    rcases Nat.lt_or_ge m (k + 1) with hlt | hge
    · have hk : 1 ≤ k := by omega
      have ha := daysBeforeMonth_succ y k hk
      have hb := ih (by omega)
      omega
    · have hm : m = k + 1 := by omega
      subst hm
      exact Nat.le.refl

theorem YMD.serial_mk (y m day : Nat) :
    (YMD.mk y m day).serial = daysBeforeYear y + daysBeforeMonth y m + day := rfl

theorem YMD.valid_mk (y m day : Nat) :
    (YMD.mk y m day).valid ↔
      (1 ≤ m ∧ m ≤ 12 ∧ 1 ≤ day ∧ day ≤ daysInMonth y m) := Iff.rfl

theorem YMD.serial_next {d : YMD} (h : d.valid) :
    d.next.serial = d.serial + 1 := by
  obtain ⟨y, m, day⟩ := d
  rw [YMD.valid_mk] at h
  obtain ⟨h1, h2, h3, h4⟩ := h
  unfold YMD.next
  dsimp only
  split
  · rw [YMD.serial_mk, YMD.serial_mk]
    omega
  · split
    · rename_i hday hm
      have hd : day = daysInMonth y m := by omega
      have hs := daysBeforeMonth_succ y m h1
      rw [YMD.serial_mk, YMD.serial_mk]
      omega
    · rename_i hday hm
      have hm12 : m = 12 := by omega
      subst hm12
      have hd : day = daysInMonth y 12 := by omega
      have h13 := daysBeforeMonth_thirteen y
      have hs : daysBeforeMonth y 13 = daysBeforeMonth y 12 + daysInMonth y 12 :=
        daysBeforeMonth_succ y 12 (by omega)
      have hby := daysBeforeYear_succ y
      have hb1 : daysBeforeMonth (y + 1) 1 = 0 := rfl
      rw [YMD.serial_mk, YMD.serial_mk]
      omega

theorem YMD.next_valid {d : YMD} (h : d.valid) : d.next.valid := by
  obtain ⟨y, m, day⟩ := d
  rw [YMD.valid_mk] at h
  obtain ⟨h1, h2, h3, h4⟩ := h
  unfold YMD.next
  dsimp only
  split
  · rename_i hc
    rw [YMD.valid_mk]
    omega
  · split
    · rename_i hday hm
      rw [YMD.valid_mk]
      have := daysInMonth_pos y (m + 1)
      omega
    · rename_i hday hm
      rw [YMD.valid_mk]
      have := daysInMonth_pos (y + 1) 1
      omega

theorem YMD.le_refl (d : YMD) : YMD.le d d = true := by
  simp [YMD.le]

theorem YMD.le_iff {a b : YMD} :
    YMD.le a b = true ↔ (a.year < b.year ∨ (a.year = b.year ∧
      (a.month < b.month ∨ (a.month = b.month ∧ a.day ≤ b.day)))) := by
  simp [YMD.le]

theorem YMD.le_trans {a b c : YMD} (h1 : YMD.le a b = true)
    (h2 : YMD.le b c = true) : YMD.le a c = true := by
  rw [YMD.le_iff] at h1 h2 ⊢
  omega

theorem YMD.le_total (a b : YMD) : YMD.le a b || YMD.le b a := by
  rw [Bool.or_eq_true, YMD.le_iff, YMD.le_iff]
  omega

/-- Within-year day offset is bounded by the year length, for valid dates. -/
theorem YMD.offset_le_daysInYear {d : YMD} (h : d.valid) :
    daysBeforeMonth d.year d.month + d.day ≤ daysInYear d.year := by
  obtain ⟨h1, h2, h3, h4⟩ := h
  have hsucc := daysBeforeMonth_succ d.year d.month h1
  have hmono := @daysBeforeMonth_mono d.year (d.month + 1) 13
    (by omega) (by omega)
  have h13 := daysBeforeMonth_thirteen d.year
  omega

theorem daysBeforeYear_mono {y y' : Nat} (h : y ≤ y') :
    daysBeforeYear y ≤ daysBeforeYear y' := by
  induction y' with
  | zero =>
    have hy : y = 0 := by omega
    subst hy
    exact Nat.le.refl
  | succ k ih =>
    rcases Nat.lt_or_ge y (k + 1) with hlt | hge
    · have ha := ih (by omega)
      have hb := daysBeforeYear_succ k
      omega
    · have hy : y = k + 1 := by omega
      subst hy
      exact Nat.le.refl

theorem YMD.serial_lt_of_lt {a b : YMD} (ha : a.valid) (hb : b.valid)
    (h : a.year < b.year ∨ (a.year = b.year ∧
      (a.month < b.month ∨ (a.month = b.month ∧ a.day < b.day)))) :
    a.serial < b.serial := by
  obtain ⟨ha1, ha2, ha3, ha4⟩ := ha
  obtain ⟨hb1, hb2, hb3, hb4⟩ := hb
  rcases h with hy | ⟨hy, hm | ⟨hm, hd⟩⟩
  · have hoff := YMD.offset_le_daysInYear ⟨ha1, ha2, ha3, ha4⟩
    have h1 : daysBeforeYear (a.year + 1) ≤ daysBeforeYear b.year :=
      daysBeforeYear_mono (by omega)
    rw [daysBeforeYear_succ] at h1
    unfold YMD.serial
    omega
  · have hsucc := daysBeforeMonth_succ a.year a.month ha1
    have hmono := @daysBeforeMonth_mono a.year (a.month + 1) b.month
      (by omega) (by omega)
    unfold YMD.serial
    rw [hy] at hsucc hmono ha4 ⊢
    omega
  · unfold YMD.serial
    rw [hy, hm]
    omega

theorem YMD.le_iff_serial {a b : YMD} (ha : a.valid) (hb : b.valid) :
    YMD.le a b = true ↔ a.serial ≤ b.serial := by
  constructor
  · intro h
    rw [YMD.le_iff] at h
    rcases h with hy | ⟨hy, hm | ⟨hm, hd⟩⟩
    · exact Nat.le_of_lt (YMD.serial_lt_of_lt ha hb (Or.inl hy))
    · exact Nat.le_of_lt (YMD.serial_lt_of_lt ha hb (Or.inr ⟨hy, Or.inl hm⟩))
    · rcases Nat.lt_or_ge a.day b.day with hlt | hge
      · exact Nat.le_of_lt
          (YMD.serial_lt_of_lt ha hb (Or.inr ⟨hy, Or.inr ⟨hm, hlt⟩⟩))
      · have : a.day = b.day := by omega
        have : a = b := by
          cases a; cases b
          simp_all
        simp [this]
  · intro h
    by_contra hc
    have hlt : YMD.le b a = true := by
      have := YMD.le_total a b
      rw [Bool.or_eq_true] at this
      tauto
    rw [YMD.le_iff] at hlt hc
    have : b.serial < a.serial := by
      apply YMD.serial_lt_of_lt hb ha
      omega
    omega

theorem YMD.serial_injective {a b : YMD} (ha : a.valid) (hb : b.valid)
    (h : a.serial = b.serial) : a = b := by
  by_contra hne
  have hlex : (a.year < b.year ∨ (a.year = b.year ∧
        (a.month < b.month ∨ (a.month = b.month ∧ a.day < b.day)))) ∨
      (b.year < a.year ∨ (b.year = a.year ∧
        (b.month < a.month ∨ (b.month = a.month ∧ b.day < a.day)))) := by
    by_contra hno
    apply hne
    cases a; cases b
    simp_all
    omega
  rcases hlex with h1 | h1
  · have := YMD.serial_lt_of_lt ha hb h1
    omega
  · have := YMD.serial_lt_of_lt hb ha h1
    omega

/-- Fuel-indexed embedding of the `while (currentDate <= endDate)` day loop
shared by `generateAvailabilityData`, `regenerateWithPreservedBookings` and
the new-month loop of `rotateAvailabilityMonths`. -/
def genDays : Nat → YMD → YMD → List YMD
  | 0, _, _ => []
  | fuel + 1, cur, endD =>
    if YMD.le cur endD then cur :: genDays fuel cur.next endD else []

/-- The list of calendar days the JS day loop visits from `startD` to `endD`
(inclusive); the fuel is exactly the number of loop iterations. -/
def dayRange (startD endD : YMD) : List YMD :=
  genDays (endD.serial + 1 - startD.serial) startD endD

theorem genDays_mem {e : YMD} (he : e.valid) :
    ∀ (n : Nat) (s : YMD), s.valid → e.serial + 1 - s.serial = n →
      ∀ d : YMD, d ∈ genDays n s e ↔
        (d.valid ∧ YMD.le s d = true ∧ YMD.le d e = true) := by
  intro n
  induction n with
  | zero =>
    intro s hs hn d
    simp only [genDays, List.not_mem_nil, false_iff]
    rintro ⟨hd, hsd, hde⟩
    rw [YMD.le_iff_serial hs hd] at hsd
    rw [YMD.le_iff_serial hd he] at hde
    omega
  | succ k ih =>
    intro s hs hn d
    have hse : YMD.le s e = true := by
      rw [YMD.le_iff_serial hs he]
      omega
    simp only [genDays, hse, if_true, List.mem_cons]
    have hnextv := YMD.next_valid hs
    have hnexts := YMD.serial_next hs
    rw [ih s.next hnextv (by omega) d]
    constructor
    · rintro (rfl | ⟨hd, hsd, hde⟩)
      · exact ⟨hs, YMD.le_refl d, hse⟩
      · refine ⟨hd, ?_, hde⟩
        rw [YMD.le_iff_serial hs hd]
        rw [YMD.le_iff_serial hnextv hd] at hsd
        omega
    · rintro ⟨hd, hsd, hde⟩
      by_cases hds : d = s
      · exact Or.inl hds
      · right
        refine ⟨hd, ?_, hde⟩
        rw [YMD.le_iff_serial hs hd] at hsd
        have hne : d.serial ≠ s.serial := by
          intro hcon
          exact hds (YMD.serial_injective hd hs hcon)
        rw [YMD.le_iff_serial hnextv hd]
        omega

theorem dayRange_mem {s e : YMD} (hs : s.valid) (he : e.valid) (d : YMD) :
    d ∈ dayRange s e ↔ (d.valid ∧ YMD.le s d = true ∧ YMD.le d e = true) :=
  genDays_mem he _ s hs rfl d

theorem genDays_valid :
    ∀ (n : Nat) (s : YMD), s.valid → ∀ d : YMD, d ∈ genDays n s e → d.valid := by
  intro n
  induction n with
  | zero => intro s hs d hd; simp [genDays] at hd
  | succ k ih =>
    intro s hs d hd
    simp only [genDays] at hd
    split at hd
    · rcases List.mem_cons.mp hd with rfl | hmem
      · exact hs
      · exact ih s.next (YMD.next_valid hs) d hmem
    · simp at hd

theorem genDays_serial_lt {e : YMD} :
    ∀ (n : Nat) (s : YMD), s.valid → ∀ d : YMD, d ∈ genDays n s e →
      s.serial ≤ d.serial := by
  intro n
  induction n with
  | zero => intro s hs d hd; simp [genDays] at hd
  | succ k ih =>
    intro s hs d hd
    simp only [genDays] at hd
    split at hd
    · rcases List.mem_cons.mp hd with rfl | hmem
      · exact Nat.le.refl
      · have := ih s.next (YMD.next_valid hs) d hmem
        have := YMD.serial_next hs
        omega
    · simp at hd

theorem genDays_nodup :
    ∀ (n : Nat) (s : YMD), s.valid → (genDays n s e).Nodup := by
  intro n
  induction n with
  | zero => intro s hs; simp [genDays]
  | succ k ih =>
    intro s hs
    simp only [genDays]
    split
    · refine List.nodup_cons.mpr ⟨?_, ih s.next (YMD.next_valid hs)⟩
      intro hmem
      have h1 := genDays_serial_lt k s.next (YMD.next_valid hs) s hmem
      have h2 := YMD.serial_next hs
      omega
    · exact List.nodup_nil

theorem dayRange_nodup {s e : YMD} (hs : s.valid) : (dayRange s e).Nodup :=
  genDays_nodup _ s hs

/-- Opaque time-of-day sub-availability payload (`timeSlots`). The engine never
inspects it; as a JS object it is always truthy when present. -/
structure TimeSlots where
  slots : List String
deriving DecidableEq, Repr

/-- One calendar date of one tour, as stored in `availabilityData`.
`status` and `season` are the free-form JS strings of the source;
`bookedParticipants` and `timeSlots` are optional JS fields. -/
structure DayRecord where
  date : YMD
  status : String
  bookedParticipants : Option Nat
  season : String
  timeSlots : Option TimeSlots
deriving DecidableEq, Repr

/-- A closed period `{startMonth, startDay, endMonth, endDay, reason}` in the
new JSON format; month-day only, may wrap the year end. A `0` in a bound
models a missing/zero JS field (both are falsy in the source's guard). -/
structure ClosedPeriod where
  startMonth : Nat
  startDay : Nat
  endMonth : Nat
  endDay : Nat
  reason : Option String := none
deriving DecidableEq, Repr

/-- A high season period `{from, to}`. `fromMD` embeds the source's
`period.from.split('-').map(Number)` result for a well-formed `"MM-DD"`
string; `none` embeds a missing/empty (falsy) `from`/`to` field. -/
structure HighSeasonPeriod where
  fromMD : Option (Nat × Nat)
  toMD : Option (Nat × Nat)
deriving DecidableEq, Repr

/-- The fields of a record of the `Tours` collection consumed by the engine.
`dbId` is the Wix `_id`; optional fields model absent JS fields. -/
structure TourData where
  dbId : String
  tourId : Option String := none
  title : Option String := none
  urlName : Option String := none
  runDays : Option (List String) := none
  closedPeriods : Option (List ClosedPeriod) := none
  highSeasonPeriods : Option String := none
  cancellationPolicy : Option String := none
deriving DecidableEq, Repr

/-- The array `['Sunday', ..., 'Saturday']` of `isDateOperatingDay`. -/
def dayNames : List String :=
  ["Sunday", "Monday", "Tuesday", "Wednesday", "Thursday", "Friday", "Saturday"]

/-- JS `date.getDay()`: 0 = Sunday .. 6 = Saturday. The offset 5 anchors the
cycle so that e.g. 2024-01-01 (serial ≡ 3 mod 7) is a Monday (`getDay() = 1`). -/
def dayOfWeek (d : YMD) : Nat := (d.serial + 5) % 7

/-- Embedding of `isDateOperatingDay(date, runDays)`: true iff the date's
weekday name is in `runDays`; a missing or empty array yields `false`. -/
def isDateOperatingDay (date : YMD) (runDays : Option (List String)) : Bool :=
  match runDays with
  | none => false
  | some l =>
    if l.length = 0 then false
    else l.contains (dayNames.getD (dayOfWeek date) "")

/-- The per-period test inside `checkDateInHighSeasonPeriods` (the callback of
the `.some(...)`), lines 1122-1149 of the source. -/
def highSeasonPeriodMatches (month day : Nat) (p : HighSeasonPeriod) : Bool :=
  match p.fromMD, p.toMD with
  | some (fromMonth, fromDay), some (toMonth, toDay) =>
    if fromMonth > toMonth then
      -- cross-year period, e.g. "12-30" to "01-03"
      if month ≥ fromMonth ∨ month ≤ toMonth then
        if month = fromMonth ∧ day ≥ fromDay then true
        else if month = toMonth ∧ day ≤ toDay then true
        else decide (month > fromMonth ∨ month < toMonth)
      else false
    else
      -- same year period
      if month ≥ fromMonth ∧ month ≤ toMonth then
        if month = fromMonth ∧ day ≥ fromDay then true
        else if month = toMonth ∧ day ≤ toDay then true
        else decide (month > fromMonth ∧ month < toMonth)
      else false
  | _, _ => false

/-- Embedding of `checkDateInHighSeasonPeriods(date, highSeasonPeriods)`. -/
def checkDateInHighSeasonPeriods (date : YMD)
    (highSeasonPeriods : List HighSeasonPeriod) : Bool :=
  if highSeasonPeriods.isEmpty then false
  else highSeasonPeriods.any
    (fun p => highSeasonPeriodMatches date.month date.day p)

/-- The per-period test inside `isDateInClosedPeriods` (the callback of the
`.some(...)`), lines 1168-1210 of the source; `!period.startMonth || ...`
rejects a zero/missing bound. -/
def closedPeriodMatches (month day : Nat) (p : ClosedPeriod) : Bool :=
  if p.startMonth = 0 ∨ p.startDay = 0 ∨ p.endMonth = 0 ∨ p.endDay = 0 then
    false
  else if p.startMonth > p.endMonth then
    -- cross-year period (e.g. Dec 24 to Jan 6)
    if month ≥ p.startMonth ∨ month ≤ p.endMonth then
      if month = p.startMonth ∧ day ≥ p.startDay then true
      else if month = p.endMonth ∧ day ≤ p.endDay then true
      else decide (month > p.startMonth ∨ month < p.endMonth)
    else false
  else
    -- same year period: normal range check
    if month ≥ p.startMonth ∧ month ≤ p.endMonth then
      if p.startMonth = p.endMonth ∧ p.startDay = p.endDay then
        -- single day
        decide (month = p.startMonth ∧ day = p.startDay)
      else if p.startMonth = p.endMonth then
        -- same month range
        decide (month = p.startMonth ∧ day ≥ p.startDay ∧ day ≤ p.endDay)
      else
        -- multi-month range
        if month = p.startMonth ∧ day ≥ p.startDay then true
        else if month = p.endMonth ∧ day ≤ p.endDay then true
        else decide (month > p.startMonth ∧ month < p.endMonth)
    else false

/-- Embedding of `isDateInClosedPeriods(date, closedPeriods)`. -/
def isDateInClosedPeriods (date : YMD)
    (closedPeriods : List ClosedPeriod) : Bool :=
  if closedPeriods.isEmpty then false
  else closedPeriods.any (fun p => closedPeriodMatches date.month date.day p)

/-- The day record pushed by `generateAvailabilityData` for one date (also the
record pushed for a new-month date by `rotateAvailabilityMonths`). -/
def mkDayRecord (tourData : TourData)
    (highSeasonPeriods : List HighSeasonPeriod)
    (closedPeriods : List ClosedPeriod) (d : YMD) : DayRecord :=
  let isClosedDate := isDateInClosedPeriods d closedPeriods
  let isOperatingDay := !isClosedDate && isDateOperatingDay d tourData.runDays
  let isHighSeason := checkDateInHighSeasonPeriods d highSeasonPeriods
  { date := d
    status := if isOperatingDay then "available" else "notoperating"
    bookedParticipants := some 0
    season := if isHighSeason then "high" else "normal"
    timeSlots := none }

/-- Embedding of `generateAvailabilityData(startDate, endDate, tourData,
highSeasonPeriods, closedPeriods)`: one record per day of the loop. -/
def generateAvailabilityData (startDate endDate : YMD) (tourData : TourData)
    (highSeasonPeriods : List HighSeasonPeriod)
    (closedPeriods : List ClosedPeriod) : List DayRecord :=
  (dayRange startDate endDate).map
    (mkDayRecord tourData highSeasonPeriods closedPeriods)

/-- Embedding of the `existingDataMap` built by
`regenerateWithPreservedBookings`: `existingData.forEach(item =>
map[item.date] = item)` makes the **last** record with a given date win. -/
def lookupExistingByDate (existingData : List DayRecord) (d : YMD) :
    Option DayRecord :=
  existingData.foldl (fun acc item => if item.date = d then some item else acc)
    none

/-- The merged entry `regenerateWithPreservedBookings` builds for one date:
the fresh entry, with `bookedParticipants` taken from the prior record when one
exists, a prior manual `soldout`/`partiallysoldout` status overriding the
fresh status, and a prior `timeSlots` carried over when present (truthy). -/
def regenEntry (tourData : TourData)
    (highSeasonPeriods : List HighSeasonPeriod)
    (closedPeriods : List ClosedPeriod) (existingData : List DayRecord)
    (d : YMD) : DayRecord :=
  let fresh := mkDayRecord tourData highSeasonPeriods closedPeriods d
  match lookupExistingByDate existingData d with
  | none => fresh
  | some existingEntry =>
    let withBp :=
      { fresh with bookedParticipants := existingEntry.bookedParticipants }
    let withStatus :=
      if existingEntry.status = "soldout" ∨
          existingEntry.status = "partiallysoldout" then
        { withBp with status := existingEntry.status }
      else withBp
    match existingEntry.timeSlots with
    | some ts => { withStatus with timeSlots := some ts }
    | none => withStatus

/-- Embedding of `regenerateWithPreservedBookings(startDate, endDate,
tourData, highSeasonPeriods, existingData, closedPeriods)`. -/
def regenerateWithPreservedBookings (startDate endDate : YMD)
    (tourData : TourData) (highSeasonPeriods : List HighSeasonPeriod)
    (existingData : List DayRecord)
    (closedPeriods : List ClosedPeriod) : List DayRecord :=
  (dayRange startDate endDate).map
    (regenEntry tourData highSeasonPeriods closedPeriods existingData)

/-- Embedding of `new Date(getFullYear(), getMonth() - 1, 1)`:
first day of the month preceding `currentDate`'s month. -/
def prevMonthStart (currentDate : YMD) : YMD :=
  if currentDate.month = 1 then ⟨currentDate.year - 1, 12, 1⟩
  else ⟨currentDate.year, currentDate.month - 1, 1⟩

/-- Embedding of `new Date(getFullYear(), getMonth(), 0)`:
last day of the month preceding `currentDate`'s month. -/
def prevMonthEnd (currentDate : YMD) : YMD :=
  let p := prevMonthStart currentDate
  ⟨p.year, p.month, daysInMonth p.year p.month⟩

/-- JS `d.setMonth(d.getMonth() + k)`: month arithmetic with the JS
normalisation that a day-of-month exceeding the target month's length rolls
over into the following month (for `d.day ≤ 31` one carry suffices). -/
def addMonthsWithOverflow (d : YMD) (k : Nat) : YMD :=
  let idx := d.year * 12 + (d.month - 1) + k
  let y := idx / 12
  let m := idx % 12 + 1
  if d.day ≤ daysInMonth y m then ⟨y, m, d.day⟩
  else if m = 12 then ⟨y + 1, 1, d.day - daysInMonth y m⟩
  else ⟨y, m + 1, d.day - daysInMonth y m⟩

/-- The `futureMonthStart` of `rotateAvailabilityMonths`:
`setMonth(getMonth() + 17)` then `setDate(1)` (month 18 of the window). -/
def futureMonthStart (currentDate : YMD) : YMD :=
  let t := addMonthsWithOverflow currentDate 17
  ⟨t.year, t.month, 1⟩

/-- The `futureMonthEnd`: `setMonth(+1)` on the future month start followed by
`setDate(0)`, i.e. the last day of the future month. -/
def futureMonthEnd (currentDate : YMD) : YMD :=
  let s := futureMonthStart currentDate
  ⟨s.year, s.month, daysInMonth s.year s.month⟩

/-- The `filteredData` of `rotateAvailabilityMonths`: every record whose date
falls in the complete previous-month range is removed. -/
def rotateFiltered (currentDate : YMD)
    (existingData : List DayRecord) : List DayRecord :=
  existingData.filter (fun item =>
    !(YMD.le (prevMonthStart currentDate) item.date &&
      YMD.le item.date (prevMonthEnd currentDate)))

/-- The `newMonthData` of `rotateAvailabilityMonths`: a fresh record for every
day of the future month whose date is not already present in `filteredData`
(the `continue` of the source loop becomes `none`). -/
def rotateNewMonth (currentDate : YMD) (tourData : TourData)
    (highSeasonPeriods : List HighSeasonPeriod)
    (closedPeriods : List ClosedPeriod)
    (filteredData : List DayRecord) : List DayRecord :=
  (dayRange (futureMonthStart currentDate) (futureMonthEnd currentDate)).filterMap
    (fun d =>
      if filteredData.any (fun item => item.date == d) then none
      else some (mkDayRecord tourData highSeasonPeriods closedPeriods d))

/-- Embedding of `rotateAvailabilityMonths(currentDate, tourData,
highSeasonPeriods, existingData, closedPeriods)`: drop the whole previous
month, generate the 18th month (skipping dates already present), and sort by
date (the JS numeric-comparator sort is stable, hence `mergeSort`). -/
def rotateAvailabilityMonths (currentDate : YMD) (tourData : TourData)
    (highSeasonPeriods : List HighSeasonPeriod)
    (existingData : List DayRecord)
    (closedPeriods : List ClosedPeriod) : List DayRecord :=
  let filteredData := rotateFiltered currentDate existingData
  let newMonthData := rotateNewMonth currentDate tourData highSeasonPeriods
    closedPeriods filteredData
  (filteredData ++ newMonthData).mergeSort (fun a b => YMD.le a.date b.date)

/-- A JS value stored in the `jsonCode` field of a `HighSeasonPeriods` record:
an already-parsed array of periods, a string (to be `JSON.parse`d), or any
other value. -/
inductive JsonValue where
  | arr (periods : List HighSeasonPeriod) : JsonValue
  | str (s : String) : JsonValue
  | other : JsonValue
deriving DecidableEq, Repr

/-- A record of the `HighSeasonPeriods` collection; `none` fields model
missing/undefined JS fields. -/
structure HighSeasonRecord where
  jsonCode : Option JsonValue := none
  name : Option String := none
deriving DecidableEq, Repr

/-- The `{ periods, policyName }` result of `fetchHighSeasonPeriods`. -/
structure HighSeasonData where
  periods : List HighSeasonPeriod
  policyName : Option String
deriving DecidableEq, Repr

/-- Embedding of `fetchHighSeasonPeriods(highSeasonId)`. The collaborators are
explicit: `parseJson` embeds `JSON.parse` (`none` = the parse threw), `lookup`
embeds `wixData.get("HighSeasonPeriods", ·)` (`Except.error` = the promise
rejected, `Except.ok none` = no record). A missing (falsy) reference is
`highSeasonId = none`. The function is total: every failure path yields a
value, mirroring the source's early returns and try/catch blocks. -/
def fetchHighSeasonPeriods (parseJson : String → Option JsonValue)
    (highSeasonId : Option String)
    (lookup : String → Except String (Option HighSeasonRecord)) :
    HighSeasonData :=
  match highSeasonId with
  | none => ⟨[], none⟩
  | some hsid =>
    match lookup hsid with
    | Except.error _ => ⟨[], none⟩
    | Except.ok none => ⟨[], none⟩
    | Except.ok (some result) =>
      let periods : List HighSeasonPeriod :=
        match result.jsonCode with
        | some (JsonValue.arr ps) => ps
        | some (JsonValue.str s) =>
          -- `result.jsonCode && typeof result.jsonCode === 'string'`:
          -- an empty string is falsy, so neither branch fires
          if s = "" then []
          else
            match parseJson s with
            | some (JsonValue.arr ps) => ps
            | some _ => []
            | none => []
        | _ => []
      ⟨periods, result.name⟩

/-- A record of the `CancellationPolicies` collection (opaque pass-through). -/
structure CancellationPolicy where
  policyName : Option String := none
deriving DecidableEq, Repr

/-- Embedding of `fetchCancellationPolicy(cancellationPolicyId)`: `null` on a
missing reference, a missing record, or a rejected lookup. -/
def fetchCancellationPolicy (cancellationPolicyId : Option String)
    (lookup : String → Except String (Option CancellationPolicy)) :
    Option CancellationPolicy :=
  match cancellationPolicyId with
  | none => none
  | some cpid =>
    match lookup cpid with
    | Except.error _ => none
    | Except.ok r => r

/-- JS truthiness of an optional string (`undefined`/`null`/`""` are falsy). -/
def jsTruthyStr : Option String → Bool
  | none => false
  | some s => decide (s ≠ "")

/-- JS `a || b` on two optional strings. -/
def jsOrStr (a b : Option String) : Option String :=
  if jsTruthyStr a then a else b

/-- Rendering of an optional string inside a JS template literal
(`undefined` renders as the string "undefined"). -/
def jsTemplateStr : Option String → String
  | none => "undefined"
  | some s => s

/-- The `${tourData.title || tourData.urlName}` label used in logs and error
messages. -/
def tourLabel (t : TourData) : String :=
  jsTemplateStr (jsOrStr t.title t.urlName)

/-- A record of the `Availability` collection. -/
structure AvailabilityRecord where
  availabilityId : String
  tourName : String
  tourId : Option String
  notes : String
  availabilityData : List DayRecord
  closedPeriods : List ClosedPeriod
deriving DecidableEq, Repr

/-- Embedding of `createInitialAvailability(tourData)`. The `Availability`
collection is the explicit list `db` (the `eq("tourName", tourId)` query is a
filter on it), `today` is `new Date()`s calendar date, and the result pairs
the settled promise (`Except.error` = the thrown error, after the catch block
logs and rethrows) with the collection after the call: on the already-exists
conflict the function throws before any `wixData.insert`, so the collection is
returned unchanged; on success the new record is inserted. -/
def createInitialAvailability (db : List AvailabilityRecord) (today : YMD)
    (parseJson : String → Option JsonValue)
    (hsLookup : String → Except String (Option HighSeasonRecord))
    (cpLookup : String → Except String (Option CancellationPolicy))
    (tourData : TourData) :
    Except String AvailabilityRecord × List AvailabilityRecord :=
  let existingItems := db.filter (fun r => r.tourName == tourData.dbId)
  if 0 < existingItems.length then
    (Except.error ("Availability already exists for: " ++ tourLabel tourData),
      db)
  else
    -- first day of the current month .. last day of the 18th month
    let startDate : YMD := ⟨today.year, today.month, 1⟩
    let endDate : YMD := prevMonthEnd (addMonthsWithOverflow startDate 18)
    let highSeasonData :=
      fetchHighSeasonPeriods parseJson tourData.highSeasonPeriods hsLookup
    let _cancellationPolicy :=
      fetchCancellationPolicy tourData.cancellationPolicy cpLookup
    let closedPeriods := tourData.closedPeriods.getD []
    let availabilityData := generateAvailabilityData startDate endDate tourData
      highSeasonData.periods closedPeriods
    let record : AvailabilityRecord :=
      { availabilityId := jsTemplateStr tourData.urlName ++ " Availability"
        tourName := tourData.dbId
        tourId := tourData.tourId
        notes := ""
        availabilityData := availabilityData
        closedPeriods := closedPeriods }
    (Except.ok record, db ++ [record])

/-- The accumulator threaded through the chunk loop of
`executeMonthlyAvailabilityUpdate`. -/
structure BatchAcc where
  successCount : Nat
  errorCount : Nat
  errorMessages : List String
  successfulTours : List String
  failedTours : List String
deriving DecidableEq, Repr

/-- The `${tour.title || tour.urlName} (ID: ${tour._id})` label recorded for a
failed tour. -/
def tourFailureLabel (t : TourData) : String :=
  tourLabel t ++ " (ID: " ++ t.dbId ++ ")"

/-- How one settled per-tour promise updates the counters and lists (the
`results.forEach` body); a rejection is modelled by its error message. -/
def recordTourResult (acc : BatchAcc) (t : TourData)
    (r : Except String Unit) : BatchAcc :=
  match r with
  | Except.ok _ =>
    { acc with
        successCount := acc.successCount + 1
        successfulTours := acc.successfulTours ++ [tourLabel t] }
  | Except.error msg =>
    { acc with
        errorCount := acc.errorCount + 1
        errorMessages := acc.errorMessages ++
          ["Error updating tour " ++ tourFailureLabel t ++ ": " ++ msg]
        failedTours := acc.failedTours ++ [tourFailureLabel t] }

/-- The slices `activeTours.items.slice(i, i + chunkSize)` visited by the
batch loop, with `chunkSize = 10`; the fuel only bounds the recursion. -/
def chunksOf10Go {α : Type} : Nat → List α → List (List α)
  | 0, _ => []
  | _ + 1, [] => []
  | fuel + 1, l => l.take 10 :: chunksOf10Go fuel (l.drop 10)

/-- The list of chunks of 10 the batch loop processes. -/
def chunksOf10 {α : Type} (l : List α) : List (List α) :=
  chunksOf10Go l.length l

/-- The aggregate outcome object returned by
`executeMonthlyAvailabilityUpdate` (the three return shapes of the source). -/
inductive MonthlyUpdateResult where
  | noToursFound (success : Bool) (message : String) (toursUpdated : Nat)
  | completed (success : Bool) (toursProcessed toursUpdated toursFailed : Nat)
      (errors : List String) (successfulTours failedTours : List String)
  | failedRun (success : Bool) (error : String)
deriving DecidableEq, Repr

/-- Embedding of `executeMonthlyAvailabilityUpdate`. `toursQuery` is the
settled `Tours` query for `_publishStatus = 'PUBLISHED'`; `process t` is the
settled promise of `generateAvailabilityForTour(t._id, false)` as observed by
`Promise.allSettled`. Log-sink calls and inter-chunk pauses carry no data and
are omitted. -/
def executeMonthlyAvailabilityUpdate
    (toursQuery : Except String (List TourData))
    (process : TourData → Except String Unit) : MonthlyUpdateResult :=
  match toursQuery with
  | Except.error e => MonthlyUpdateResult.failedRun false e
  | Except.ok activeTours =>
    if activeTours.length = 0 then
      MonthlyUpdateResult.noToursFound true
        ("No active tours found for update") 0
    else
      let finalAcc := (chunksOf10 activeTours).foldl
        (fun acc chunk =>
          chunk.foldl (fun a t => recordTourResult a t (process t)) acc)
        ⟨0, 0, [], [], []⟩
      MonthlyUpdateResult.completed true activeTours.length
        finalAcc.successCount finalAcc.errorCount finalAcc.errorMessages
        finalAcc.successfulTours finalAcc.failedTours

set_option maxRecDepth 2000

/-! ### Structural lemmas about generated entries -/

theorem mkDayRecord_date (td : TourData) (hs : List HighSeasonPeriod)
    (cp : List ClosedPeriod) (d : YMD) : (mkDayRecord td hs cp d).date = d := rfl

theorem mkDayRecord_bookedParticipants (td : TourData)
    (hs : List HighSeasonPeriod) (cp : List ClosedPeriod) (d : YMD) :
    (mkDayRecord td hs cp d).bookedParticipants = some 0 := rfl

theorem mkDayRecord_status (td : TourData) (hs : List HighSeasonPeriod)
    (cp : List ClosedPeriod) (d : YMD) :
    (mkDayRecord td hs cp d).status =
      if (!isDateInClosedPeriods d cp && isDateOperatingDay d td.runDays)
      then "available" else "notoperating" := rfl

theorem mkDayRecord_season (td : TourData) (hs : List HighSeasonPeriod)
    (cp : List ClosedPeriod) (d : YMD) :
    (mkDayRecord td hs cp d).season =
      if checkDateInHighSeasonPeriods d hs then "high" else "normal" := rfl

theorem mkDayRecord_timeSlots (td : TourData) (hs : List HighSeasonPeriod)
    (cp : List ClosedPeriod) (d : YMD) :
    (mkDayRecord td hs cp d).timeSlots = none := rfl

theorem mem_generateAvailabilityData {s e : YMD} {td : TourData}
    {hs : List HighSeasonPeriod} {cp : List ClosedPeriod} {r : DayRecord} :
    r ∈ generateAvailabilityData s e td hs cp ↔
      ∃ d ∈ dayRange s e, r = mkDayRecord td hs cp d := by
  simp only [generateAvailabilityData, List.mem_map]
  constructor
  · rintro ⟨d, hd, rfl⟩
    exact ⟨d, hd, rfl⟩
  · rintro ⟨d, hd, rfl⟩
    exact ⟨d, hd, rfl⟩

/-- C5. For every generated day whose date matches a closed period, the
fresh status is `notoperating` regardless of the operating pattern; likewise
with a missing or empty `runDays` every generated day is `notoperating`. -/
theorem generate_notoperating_of_closed_or_patternless
    (startDate endDate : YMD) (tourData : TourData)
    (highSeasonPeriods : List HighSeasonPeriod)
    (closedPeriods : List ClosedPeriod) (r : DayRecord)
    (hr : r ∈ generateAvailabilityData startDate endDate tourData
      highSeasonPeriods closedPeriods)
    (h : isDateInClosedPeriods r.date closedPeriods = true ∨
      tourData.runDays = none ∨ tourData.runDays = some []) :
    r.status = "notoperating" := by
  rcases mem_generateAvailabilityData.mp hr with ⟨d, hd, rfl⟩
  rw [mkDayRecord_date] at h
  rw [mkDayRecord_status]
  rcases h with hc | hn | he
  · simp [hc]
  · simp [isDateOperatingDay, hn]
  · simp [isDateOperatingDay, he]

theorem generate_notoperating_of_closed_witness :
    (mkDayRecord { dbId := "t", runDays := some ["Monday"] } []
      [{ startMonth := 1, startDay := 1, endMonth := 1, endDay := 1 }]
      ⟨2024, 1, 1⟩).status = "notoperating" :=
  generate_notoperating_of_closed_or_patternless ⟨2024, 1, 1⟩ ⟨2024, 1, 1⟩
    { dbId := "t", runDays := some ["Monday"] } []
    [{ startMonth := 1, startDay := 1, endMonth := 1, endDay := 1 }]
    (mkDayRecord { dbId := "t", runDays := some ["Monday"] } []
      [{ startMonth := 1, startDay := 1, endMonth := 1, endDay := 1 }]
      ⟨2024, 1, 1⟩)
    (by decide) (Or.inl (by decide))

/-- C4. For valid `start ≤ end` and any pattern, season windows and closed
periods, generation yields exactly one record per calendar day of the
inclusive span — no duplicates, no gaps — each with `bookedParticipants` 0. -/
theorem generateAvailabilityData_complete
    (startDate endDate : YMD) (tourData : TourData)
    (highSeasonPeriods : List HighSeasonPeriod)
    (closedPeriods : List ClosedPeriod)
    (h1 : startDate.valid) (h2 : endDate.valid)
    (h3 : YMD.le startDate endDate = true) :
    ((generateAvailabilityData startDate endDate tourData highSeasonPeriods
        closedPeriods).map DayRecord.date).Nodup ∧
    (∀ d : YMD,
      d ∈ (generateAvailabilityData startDate endDate tourData
        highSeasonPeriods closedPeriods).map DayRecord.date ↔
      (d.valid ∧ YMD.le startDate d = true ∧ YMD.le d endDate = true)) ∧
    (∀ r ∈ generateAvailabilityData startDate endDate tourData
        highSeasonPeriods closedPeriods, r.bookedParticipants = some 0) := by
  have hmap : (generateAvailabilityData startDate endDate tourData
      highSeasonPeriods closedPeriods).map DayRecord.date =
      dayRange startDate endDate := by
    rw [generateAvailabilityData, List.map_map]
    have hcomp : DayRecord.date ∘
        mkDayRecord tourData highSeasonPeriods closedPeriods = id := by
      funext d
      rfl
    rw [hcomp, List.map_id]
  refine ⟨?_, ?_, ?_⟩
  · rw [hmap]
    exact dayRange_nodup h1
  · intro d
    rw [hmap]
    exact dayRange_mem h1 h2 d
  · intro r hr
    rcases mem_generateAvailabilityData.mp hr with ⟨d, hd, rfl⟩
    rfl

theorem generateAvailabilityData_complete_witness :
    ((generateAvailabilityData ⟨2024, 1, 1⟩ ⟨2024, 1, 7⟩ { dbId := "t" } []
      []).map DayRecord.date).Nodup :=
  (generateAvailabilityData_complete ⟨2024, 1, 1⟩ ⟨2024, 1, 7⟩ { dbId := "t" }
    [] [] (by decide) (by decide) (by decide)).1

/-- C7. The wraparound range 12-24..01-06 matches 12-25 and 01-01 and does
not match 06-15, under both the closed-period membership test and the
season-window membership test. -/
theorem wraparound_dec24_jan6_membership :
    isDateInClosedPeriods ⟨2024, 12, 25⟩
      [{ startMonth := 12, startDay := 24, endMonth := 1, endDay := 6 }] =
        true ∧
    isDateInClosedPeriods ⟨2025, 1, 1⟩
      [{ startMonth := 12, startDay := 24, endMonth := 1, endDay := 6 }] =
        true ∧
    isDateInClosedPeriods ⟨2024, 6, 15⟩
      [{ startMonth := 12, startDay := 24, endMonth := 1, endDay := 6 }] =
        false ∧
    checkDateInHighSeasonPeriods ⟨2024, 12, 25⟩
      [⟨some (12, 24), some (1, 6)⟩] = true ∧
    checkDateInHighSeasonPeriods ⟨2025, 1, 1⟩
      [⟨some (12, 24), some (1, 6)⟩] = true ∧
    checkDateInHighSeasonPeriods ⟨2024, 6, 15⟩
      [⟨some (12, 24), some (1, 6)⟩] = false := by
  decide

/-- A stored `jsonCode` payload that is neither an already-parsed array nor a
string that parses to a JSON array (the malformed/unparseable case). -/
def malformedJsonCode (parseJson : String → Option JsonValue) :
    Option JsonValue → Prop
  | some (JsonValue.arr _) => False
  | some (JsonValue.str s) => ∀ ps, parseJson s ≠ some (JsonValue.arr ps)
  | some JsonValue.other => True
  | none => True

/-- C8. The season-window resolver never throws (it is a total function):
a missing reference yields an empty window list and a null policy name, as do
a rejected or empty lookup; a malformed or unparseable stored payload yields
an empty window list, so generation proceeds with normal-season semantics. -/
theorem fetchHighSeasonPeriods_recovery
    (parseJson : String → Option JsonValue) (highSeasonId : Option String)
    (lookup : String → Except String (Option HighSeasonRecord)) :
    (highSeasonId = none →
      fetchHighSeasonPeriods parseJson highSeasonId lookup = ⟨[], none⟩) ∧
    (∀ hsid, highSeasonId = some hsid →
      ((∀ msg, lookup hsid = Except.error msg →
          fetchHighSeasonPeriods parseJson highSeasonId lookup = ⟨[], none⟩) ∧
        (lookup hsid = Except.ok none →
          fetchHighSeasonPeriods parseJson highSeasonId lookup = ⟨[], none⟩) ∧
        (∀ result, lookup hsid = Except.ok (some result) →
          malformedJsonCode parseJson result.jsonCode →
          (fetchHighSeasonPeriods parseJson highSeasonId lookup).periods =
            []))) := by
  refine ⟨?_, ?_⟩
  · rintro rfl
    rfl
  · rintro hsid rfl
    refine ⟨?_, ?_, ?_⟩
    · intro msg hm
      simp [fetchHighSeasonPeriods, hm]
    · intro hm
      simp [fetchHighSeasonPeriods, hm]
    · intro result hm hmal
      cases hj : result.jsonCode with
      | none => simp [fetchHighSeasonPeriods, hm, hj]
      | some v =>
        cases v with
        | arr ps =>
          rw [hj] at hmal
          simp [malformedJsonCode] at hmal
        | str s =>
          rw [hj] at hmal
          simp only [malformedJsonCode] at hmal
          simp only [fetchHighSeasonPeriods, hm, hj]
          split
          · rfl
          · cases hp : parseJson s with
            | none => simp [hp]
            | some w =>
              cases w with
              | arr ps => exact absurd hp (hmal ps)
              | str s2 => simp [hp]
              | other => simp [hp]
        | other => simp [fetchHighSeasonPeriods, hm, hj]

/-- A `JSON.parse` collaborator that always throws. -/
def parseJsonFails : String → Option JsonValue := fun _ => none

/-- A policy-store lookup returning a record whose `jsonCode` is neither an
array nor a string. -/
def hsLookupOtherPayload : String → Except String (Option HighSeasonRecord) :=
  fun _ =>
    Except.ok (some { jsonCode := some JsonValue.other,
                      name := some ("Test Policy") })

theorem fetchHighSeasonPeriods_recovery_witness :
    (fetchHighSeasonPeriods parseJsonFails (some ("policy-ref"))
      hsLookupOtherPayload).periods = [] :=
  ((fetchHighSeasonPeriods_recovery parseJsonFails (some ("policy-ref"))
      hsLookupOtherPayload).2 ("policy-ref") rfl).2.2
    { jsonCode := some JsonValue.other, name := some ("Test Policy") } rfl
    trivial

/-- C9. When an `Availability` record for the tour already exists,
`createInitialAvailability` fails with the already-exists error and performs
no write: the collection is returned unchanged (the throw happens before any
insert). -/
theorem createInitialAvailability_conflict
    (db : List AvailabilityRecord) (today : YMD)
    (parseJson : String → Option JsonValue)
    (hsLookup : String → Except String (Option HighSeasonRecord))
    (cpLookup : String → Except String (Option CancellationPolicy))
    (tourData : TourData)
    (h : ∃ r ∈ db, r.tourName = tourData.dbId) :
    (createInitialAvailability db today parseJson hsLookup cpLookup
        tourData).1 =
      Except.error ("Availability already exists for: " ++ tourLabel tourData) ∧
    (createInitialAvailability db today parseJson hsLookup cpLookup
        tourData).2 = db := by
  have hlen : 0 < (db.filter (fun r => r.tourName == tourData.dbId)).length := by
    rcases h with ⟨r, hr, he⟩
    rw [List.length_pos]
    intro hnil
    have h2 := List.filter_eq_nil_iff.mp hnil r hr
    simp [he] at h2
  constructor
  · simp only [createInitialAvailability]
    rw [if_pos hlen]
  · simp only [createInitialAvailability]
    rw [if_pos hlen]

/-- A lookup collaborator that finds no record. -/
def hsLookupMissing : String → Except String (Option HighSeasonRecord) :=
  fun _ => Except.ok none

/-- A cancellation-policy lookup that finds no record. -/
def cpLookupMissing : String → Except String (Option CancellationPolicy) :=
  fun _ => Except.ok none

/-- The concrete pre-existing availability record used in witnesses. -/
def existingAvailabilityW : AvailabilityRecord :=
  { availabilityId := "Tour One Availability"
    tourName := "t1"
    tourId := some ("OM001")
    notes := ""
    availabilityData := []
    closedPeriods := [] }

theorem createInitialAvailability_conflict_witness :
    (createInitialAvailability [existingAvailabilityW] ⟨2024, 5, 1⟩
        parseJsonFails hsLookupMissing cpLookupMissing { dbId := "t1" }).2 =
      [existingAvailabilityW] :=
  (createInitialAvailability_conflict [existingAvailabilityW] ⟨2024, 5, 1⟩
    parseJsonFails hsLookupMissing cpLookupMissing { dbId := "t1" }
    (by decide)).2

theorem chunksOf10Go_flatten {α : Type} :
    ∀ (fuel : Nat) (l : List α), l.length ≤ fuel →
      (chunksOf10Go fuel l).flatten = l := by
  intro fuel
  induction fuel with
  | zero =>
    intro l h
    have hl : l = [] := List.length_eq_zero.mp (by omega)
    subst hl
    rfl
  | succ k ih =>
    intro l h
    match l with
    | [] => rfl
    | x :: xs =>
      show ((x :: xs).take 10 :: chunksOf10Go k ((x :: xs).drop 10)).flatten =
        x :: xs
      rw [List.flatten_cons, ih ((x :: xs).drop 10) ?_, List.take_append_drop]
      rw [List.length_drop]
      simp only [List.length_cons] at h ⊢
      omega

theorem chunksOf10_flatten {α : Type} (l : List α) :
    (chunksOf10 l).flatten = l :=
  chunksOf10Go_flatten l.length l Nat.le.refl

theorem chunksOf10Go_bounded {α : Type} :
    ∀ (fuel : Nat) (l : List α),
      (chunksOf10Go fuel l).all (fun c => decide (c.length ≤ 10)) = true := by
  intro fuel
  induction fuel with
  | zero => intro l; rfl
  | succ k ih =>
    intro l
    match l with
    | [] => rfl
    | x :: xs =>
      show (((x :: xs).take 10 :: chunksOf10Go k ((x :: xs).drop 10)).all
        (fun c => decide (c.length ≤ 10))) = true
      rw [List.all_cons, ih ((x :: xs).drop 10)]
      simp [List.length_take]

theorem chunksOf10_bounded {α : Type} (l : List α) :
    (chunksOf10 l).all (fun c => decide (c.length ≤ 10)) = true :=
  chunksOf10Go_bounded l.length l

theorem foldl_recordTourResult (process : TourData → Except String Unit) :
    ∀ (l : List TourData) (acc : BatchAcc),
      l.foldl (fun a t => recordTourResult a t (process t)) acc =
        { successCount :=
            acc.successCount + l.countP (fun t => (process t).isOk)
          errorCount :=
            acc.errorCount + l.countP (fun t => !(process t).isOk)
          errorMessages := acc.errorMessages ++ l.filterMap (fun t =>
            match process t with
            | Except.ok _ => none
            | Except.error msg =>
              some ("Error updating tour " ++ tourFailureLabel t ++ ": " ++ msg))
          successfulTours := acc.successfulTours ++ l.filterMap (fun t =>
            match process t with
            | Except.ok _ => some (tourLabel t)
            | Except.error _ => none)
          failedTours := acc.failedTours ++ l.filterMap (fun t =>
            match process t with
            | Except.ok _ => none
            | Except.error _ => some (tourFailureLabel t)) } := by
  intro l
  induction l with
  | nil =>
    intro acc
    simp
  | cons t ts ih =>
    intro acc
    rw [List.foldl_cons, ih]
    cases hp : process t with
    | ok u =>
      simp [recordTourResult, hp, List.countP_cons, List.filterMap_cons,
        Except.isOk, Except.toBool]
      omega
    | error msg =>
      simp [recordTourResult, hp, List.countP_cons, List.filterMap_cons,
        Except.isOk, Except.toBool]
      omega

/-- C10. The batch update processes the published tours in chunks of at
most 10 that together cover the tour list exactly; per-tour failures are
isolated (each failing tour contributes its label, id and error message to
the failure lists without stopping the remaining tours), the aggregate result
enumerates per-tour successes and failures with overall counts, and an empty
tour list yields the successful no-op outcome. -/
theorem executeMonthlyAvailabilityUpdate_aggregate
    (activeTours : List TourData) (process : TourData → Except String Unit) :
    (chunksOf10 activeTours).flatten = activeTours ∧
    (chunksOf10 activeTours).all (fun c => decide (c.length ≤ 10)) = true ∧
    executeMonthlyAvailabilityUpdate (Except.ok activeTours) process =
      (if activeTours.length = 0 then
        MonthlyUpdateResult.noToursFound true
          ("No active tours found for update") 0
      else
        MonthlyUpdateResult.completed true activeTours.length
          (activeTours.countP (fun t => (process t).isOk))
          (activeTours.countP (fun t => !(process t).isOk))
          (activeTours.filterMap (fun t =>
            match process t with
            | Except.ok _ => none
            | Except.error msg =>
              some ("Error updating tour " ++ tourFailureLabel t ++ ": " ++
                msg)))
          (activeTours.filterMap (fun t =>
            match process t with
            | Except.ok _ => some (tourLabel t)
            | Except.error _ => none))
          (activeTours.filterMap (fun t =>
            match process t with
            | Except.ok _ => none
            | Except.error _ => some (tourFailureLabel t)))) := by
  refine ⟨chunksOf10_flatten _, chunksOf10_bounded _, ?_⟩
  by_cases hz : activeTours.length = 0
  · simp [executeMonthlyAvailabilityUpdate, hz]
  · have hchunk : (chunksOf10 activeTours).foldl
        (fun acc chunk =>
          chunk.foldl (fun a t => recordTourResult a t (process t)) acc)
        ⟨0, 0, [], [], []⟩ =
        activeTours.foldl (fun a t => recordTourResult a t (process t))
          ⟨0, 0, [], [], []⟩ := by
      conv_rhs => rw [← chunksOf10_flatten activeTours]
      rw [List.foldl_flatten]
    simp only [executeMonthlyAvailabilityUpdate, hz, if_false]
    rw [hchunk, foldl_recordTourResult]
    simp

theorem closedPeriodMatches_iff (p : ClosedPeriod) (month day : Nat)
    (hz : p.startMonth ≠ 0 ∧ p.startDay ≠ 0 ∧ p.endMonth ≠ 0 ∧ p.endDay ≠ 0) :
    closedPeriodMatches month day p = true ↔
      (if p.startMonth > p.endMonth then
        ((month ≥ p.startMonth ∨ month ≤ p.endMonth) ∧
          ((month = p.startMonth ∧ day ≥ p.startDay) ∨
            (month = p.endMonth ∧ day ≤ p.endDay) ∨
            month > p.startMonth ∨ month < p.endMonth))
      else if p.startMonth = p.endMonth then
        (month = p.startMonth ∧ p.startDay ≤ day ∧ day ≤ p.endDay)
      else
        ((p.startMonth ≤ month ∧ month ≤ p.endMonth) ∧
          ((month = p.startMonth ∧ day ≥ p.startDay) ∨
            (month = p.endMonth ∧ day ≤ p.endDay) ∨
            (month > p.startMonth ∧ month < p.endMonth)))) := by
  obtain ⟨hz1, hz2, hz3, hz4⟩ := hz
  unfold closedPeriodMatches
  split_ifs <;> simp_all <;> omega

theorem highSeasonPeriodMatches_iff (fm fd tm tday month day : Nat) :
    highSeasonPeriodMatches month day ⟨some (fm, fd), some (tm, tday)⟩ =
      true ↔
      (if fm > tm then
        ((month ≥ fm ∨ month ≤ tm) ∧
          ((month = fm ∧ day ≥ fd) ∨ (month = tm ∧ day ≤ tday) ∨
            month > fm ∨ month < tm))
      else
        ((fm ≤ month ∧ month ≤ tm) ∧
          ((month = fm ∧ day ≥ fd) ∨ (month = tm ∧ day ≤ tday) ∨
            (month > fm ∧ month < tm)))) := by
  unfold highSeasonPeriodMatches
  split_ifs <;> simp_all <;> omega

/-- C6 counterexample. For the single-day recurring range 05-10..05-10,
encoded for both call sites, the closed-period test and the season-window
test disagree on 2024-05-11: the closed-period test matches only the exact
day, while the season test matches every day of the month. -/
theorem closed_vs_season_divergence :
    isDateInClosedPeriods ⟨2024, 5, 11⟩
      [{ startMonth := 5, startDay := 10, endMonth := 5, endDay := 10 }] =
      false ∧
    checkDateInHighSeasonPeriods ⟨2024, 5, 11⟩
      [⟨some (5, 10), some (5, 10)⟩] = true := by
  decide

/-- C6 amended. The two membership tests agree whenever the range's start
and end months differ (including wraparound ranges); for a same-month range
they diverge: the closed-period test matches exactly the days in
`[startDay, endDay]` (so a single-day range matches only on exact equality),
while the season test matches a day of that month iff `day ≥ fromDay` or
`day ≤ toDay` — for `fromDay ≤ toDay` that is every day of the month. -/
theorem closed_vs_season_parity (p : ClosedPeriod) (month day : Nat)
    (h1 : 1 ≤ p.startMonth) (h2 : p.startMonth ≤ 12) (h3 : 1 ≤ p.startDay)
    (h4 : 1 ≤ p.endMonth) (h5 : p.endMonth ≤ 12) (h6 : 1 ≤ p.endDay) :
    (p.startMonth ≠ p.endMonth →
      closedPeriodMatches month day p =
        highSeasonPeriodMatches month day
          ⟨some (p.startMonth, p.startDay), some (p.endMonth, p.endDay)⟩) ∧
    (p.startMonth = p.endMonth →
      ((closedPeriodMatches month day p = true ↔
          (month = p.startMonth ∧ p.startDay ≤ day ∧ day ≤ p.endDay)) ∧
        (highSeasonPeriodMatches month day
            ⟨some (p.startMonth, p.startDay), some (p.endMonth, p.endDay)⟩ =
            true ↔
          (month = p.startMonth ∧ (p.startDay ≤ day ∨ day ≤ p.endDay))))) := by
  have hc := closedPeriodMatches_iff p month day
    ⟨by omega, by omega, by omega, by omega⟩
  have hh := highSeasonPeriodMatches_iff p.startMonth p.startDay p.endMonth
    p.endDay month day
  constructor
  · intro hne
    rw [Bool.eq_iff_iff, hc, hh]
    split_ifs <;> omega
  · intro heq
    constructor
    · rw [hc]
      split_ifs <;> omega
    · rw [hh]
      split_ifs <;> omega

theorem closed_vs_season_parity_witness :
    closedPeriodMatches 12 25
      { startMonth := 12, startDay := 24, endMonth := 1, endDay := 6 } =
    highSeasonPeriodMatches 12 25 ⟨some (12, 24), some (1, 6)⟩ :=
  (closed_vs_season_parity
    { startMonth := 12, startDay := 24, endMonth := 1, endDay := 6 } 12 25
    (by decide) (by decide) (by decide) (by decide) (by decide)
    (by decide)).1 (by decide)

theorem regenEntry_date (td : TourData) (hs : List HighSeasonPeriod)
    (cp : List ClosedPeriod) (ex : List DayRecord) (d : YMD) :
    (regenEntry td hs cp ex d).date = d := by
  unfold regenEntry
  cases hL : lookupExistingByDate ex d with
  | none => rfl
  | some e =>
    dsimp only
    cases hT : e.timeSlots with
    | none => split_ifs <;> rfl
    | some ts => split_ifs <;> rfl

theorem regenEntry_fields (td : TourData) (hs : List HighSeasonPeriod)
    (cp : List ClosedPeriod) (ex : List DayRecord) (d : YMD) :
    (lookupExistingByDate ex d = none →
      regenEntry td hs cp ex d = mkDayRecord td hs cp d) ∧
    (∀ e, lookupExistingByDate ex d = some e →
      (((e.status = "soldout" ∨ e.status = "partiallysoldout") →
          (regenEntry td hs cp ex d).status = e.status) ∧
        (¬(e.status = "soldout" ∨ e.status = "partiallysoldout") →
          (regenEntry td hs cp ex d).status =
            (mkDayRecord td hs cp d).status) ∧
        (regenEntry td hs cp ex d).bookedParticipants =
          e.bookedParticipants ∧
        (∀ ts, e.timeSlots = some ts →
          (regenEntry td hs cp ex d).timeSlots = some ts) ∧
        (e.timeSlots = none →
          (regenEntry td hs cp ex d).timeSlots = none))) ∧
    (regenEntry td hs cp ex d).season =
      (if checkDateInHighSeasonPeriods d hs then "high" else "normal") := by
  refine ⟨?_, ?_, ?_⟩
  · intro hL
    unfold regenEntry
    rw [hL]
  · intro e hL
    refine ⟨?_, ?_, ?_, ?_, ?_⟩
    · intro hS
      unfold regenEntry
      rw [hL]
      dsimp only
      rw [if_pos hS]
      cases hT : e.timeSlots <;> rfl
    · intro hS
      unfold regenEntry
      rw [hL]
      dsimp only
      rw [if_neg hS]
      cases hT : e.timeSlots <;> rfl
    · unfold regenEntry
      rw [hL]
      dsimp only
      split_ifs <;> cases hT : e.timeSlots <;> rfl
    · intro ts hT
      unfold regenEntry
      rw [hL]
      dsimp only
      rw [hT]
    · intro hT
      unfold regenEntry
      rw [hL]
      dsimp only
      rw [hT]
      split_ifs <;> rfl
  · have hSea : (regenEntry td hs cp ex d).season =
        (mkDayRecord td hs cp d).season := by
      unfold regenEntry
      cases hL : lookupExistingByDate ex d with
      | none => rfl
      | some e =>
        dsimp only
        split_ifs <;> cases hT : e.timeSlots <;> rfl
    rw [hSea, mkDayRecord_season]

theorem mem_regenerateWithPreservedBookings {s e : YMD} {td : TourData}
    {hs : List HighSeasonPeriod} {ex : List DayRecord}
    {cp : List ClosedPeriod} {r : DayRecord} :
    r ∈ regenerateWithPreservedBookings s e td hs ex cp ↔
      ∃ d ∈ dayRange s e, r = regenEntry td hs cp ex d := by
  simp only [regenerateWithPreservedBookings, List.mem_map]
  constructor
  · rintro ⟨d, hd, rfl⟩
    exact ⟨d, hd, rfl⟩
  · rintro ⟨d, hd, rfl⟩
    exact ⟨d, hd, rfl⟩

/-- C1 amended. Every record produced by a full regeneration satisfies:
with no prior record for its date it is exactly the freshly generated record
(in particular `bookedParticipants = 0`); with a prior record, a prior
`soldout`/`partiallysoldout` status overrides the fresh status (for any
closed periods, so a manual soldout also wins on a closed date), any other
prior status leaves the freshly computed status, the prior
`bookedParticipants` field is carried forward verbatim — including its
absence, which stays absent rather than becoming 0 — and a present prior
`timeSlots` is carried verbatim; `season` is always the freshly computed
classification, never the prior one. -/
theorem regenerateWithPreservedBookings_preserves
    (startDate endDate : YMD) (tourData : TourData)
    (highSeasonPeriods : List HighSeasonPeriod)
    (existingData : List DayRecord) (closedPeriods : List ClosedPeriod)
    (r : DayRecord)
    (hr : r ∈ regenerateWithPreservedBookings startDate endDate tourData
      highSeasonPeriods existingData closedPeriods) :
    (lookupExistingByDate existingData r.date = none →
      r = mkDayRecord tourData highSeasonPeriods closedPeriods r.date) ∧
    (∀ e, lookupExistingByDate existingData r.date = some e →
      (((e.status = "soldout" ∨ e.status = "partiallysoldout") →
          r.status = e.status) ∧
        (¬(e.status = "soldout" ∨ e.status = "partiallysoldout") →
          r.status = (mkDayRecord tourData highSeasonPeriods closedPeriods
            r.date).status) ∧
        r.bookedParticipants = e.bookedParticipants ∧
        (∀ ts, e.timeSlots = some ts → r.timeSlots = some ts) ∧
        (e.timeSlots = none → r.timeSlots = none))) ∧
    r.season = (if checkDateInHighSeasonPeriods r.date highSeasonPeriods
      then "high" else "normal") := by
  rcases mem_regenerateWithPreservedBookings.mp hr with ⟨d, hd, rfl⟩
  rw [regenEntry_date]
  exact regenEntry_fields tourData highSeasonPeriods closedPeriods
    existingData d

/-- A prior record carrying no `bookedParticipants` field. -/
def priorNoBpW : DayRecord :=
  { date := ⟨2024, 5, 6⟩, status := "available", bookedParticipants := none,
    season := "normal", timeSlots := none }

/-- C1 counterexample. Date 2024-05-06 has a prior record without a
`bookedParticipants` field; the claim says the regenerated record then has
`bookedParticipants` 0, but the code carries the absent field forward
(`existingEntry.bookedParticipants` is `undefined`), so the output field is
absent, not 0. -/
theorem regenerate_absent_bookedParticipants_counterexample :
    lookupExistingByDate [priorNoBpW] ⟨2024, 5, 6⟩ = some priorNoBpW ∧
    priorNoBpW.bookedParticipants = none ∧
    (regenerateWithPreservedBookings ⟨2024, 5, 6⟩ ⟨2024, 5, 6⟩ { dbId := "t" }
      [] [priorNoBpW] []).map (fun r => r.bookedParticipants) = [none] ∧
    (regenerateWithPreservedBookings ⟨2024, 5, 6⟩ ⟨2024, 5, 6⟩ { dbId := "t" }
      [] [priorNoBpW] []).map (fun r => r.bookedParticipants) ≠ [some 0] := by
  decide

/-- A prior manually sold-out record (with bookings and time slots) on a date
that also lies in a closed period. -/
def priorSoldW : DayRecord :=
  { date := ⟨2024, 5, 6⟩, status := "soldout", bookedParticipants := some 4,
    season := "normal", timeSlots := some ⟨["10:00"]⟩ }

/-- The closed period covering 05-06, to exercise soldout-wins-over-closure. -/
def closedMay6W : List ClosedPeriod :=
  [{ startMonth := 5, startDay := 6, endMonth := 5, endDay := 6 }]

theorem regenerateWithPreservedBookings_preserves_witness :
    (regenEntry { dbId := "t" } [] closedMay6W [priorSoldW]
      ⟨2024, 5, 6⟩).status = "soldout" := by
  have h := regenerateWithPreservedBookings_preserves ⟨2024, 5, 6⟩
    ⟨2024, 5, 6⟩ { dbId := "t" } [] [priorSoldW] closedMay6W
    (regenEntry { dbId := "t" } [] closedMay6W [priorSoldW] ⟨2024, 5, 6⟩)
    (by decide)
  have h2 := (h.2.1 priorSoldW (by decide)).1 (Or.inl rfl)
  exact h2

theorem prevMonthStart_day (cur : YMD) : (prevMonthStart cur).day = 1 := by
  unfold prevMonthStart
  split_ifs <;> rfl

theorem prevMonthEnd_eq (cur : YMD) :
    prevMonthEnd cur = ⟨(prevMonthStart cur).year, (prevMonthStart cur).month,
      daysInMonth (prevMonthStart cur).year (prevMonthStart cur).month⟩ := rfl

theorem futureMonthStart_day (cur : YMD) : (futureMonthStart cur).day = 1 := rfl

theorem futureMonthEnd_eq (cur : YMD) :
    futureMonthEnd cur = ⟨(futureMonthStart cur).year,
      (futureMonthStart cur).month,
      daysInMonth (futureMonthStart cur).year (futureMonthStart cur).month⟩ :=
  rfl

/-- A date lying (lexicographically) between the first and the `L`-th day of a
month is a day of that month. -/
theorem month_range_chars (base : YMD) (L : Nat) (d : YMD)
    (hday : base.day = 1)
    (h : (YMD.le base d && YMD.le d ⟨base.year, base.month, L⟩) = true) :
    d.year = base.year ∧ d.month = base.month ∧ 1 ≤ d.day ∧ d.day ≤ L := by
  rw [Bool.and_eq_true, YMD.le_iff, YMD.le_iff] at h
  dsimp only at h
  omega

theorem addMonthsWithOverflow_month_bounds (d : YMD) (k : Nat) :
    1 ≤ (addMonthsWithOverflow d k).month ∧
      (addMonthsWithOverflow d k).month ≤ 12 := by
  unfold addMonthsWithOverflow
  dsimp only
  split_ifs <;> dsimp only <;> omega

theorem futureMonthStart_valid (cur : YMD) : (futureMonthStart cur).valid := by
  have hb := addMonthsWithOverflow_month_bounds cur 17
  have hp := daysInMonth_pos (addMonthsWithOverflow cur 17).year
    (addMonthsWithOverflow cur 17).month
  unfold futureMonthStart
  dsimp only
  rw [YMD.valid_mk]
  omega

theorem futureMonthEnd_valid (cur : YMD) : (futureMonthEnd cur).valid := by
  have hb := addMonthsWithOverflow_month_bounds cur 17
  have hp := daysInMonth_pos (futureMonthStart cur).year
    (futureMonthStart cur).month
  rw [futureMonthEnd_eq, YMD.valid_mk]
  have hm : (futureMonthStart cur).month = (addMonthsWithOverflow cur 17).month :=
    rfl
  have hy : (futureMonthStart cur).year = (addMonthsWithOverflow cur 17).year :=
    rfl
  rw [hm, hy]
  rw [hm, hy] at hp
  omega

/-- The month 18 months ahead is never the previous month. -/
theorem futureMonth_ne_prevMonth (cur : YMD) (hv : cur.valid) :
    ¬((futureMonthStart cur).year = (prevMonthStart cur).year ∧
      (futureMonthStart cur).month = (prevMonthStart cur).month) := by
  obtain ⟨y, m, day⟩ := cur
  rw [YMD.valid_mk] at hv
  unfold futureMonthStart addMonthsWithOverflow prevMonthStart
  dsimp only
  split_ifs <;> dsimp only <;> omega

theorem rotateAvailabilityMonths_eq (cur : YMD) (td : TourData)
    (hs : List HighSeasonPeriod) (ex : List DayRecord)
    (cp : List ClosedPeriod) :
    rotateAvailabilityMonths cur td hs ex cp =
      (rotateFiltered cur ex ++
        rotateNewMonth cur td hs cp (rotateFiltered cur ex)).mergeSort
        (fun a b => YMD.le a.date b.date) := rfl

theorem mem_rotateAvailabilityMonths {cur : YMD} {td : TourData}
    {hs : List HighSeasonPeriod} {ex : List DayRecord}
    {cp : List ClosedPeriod} {r : DayRecord} :
    r ∈ rotateAvailabilityMonths cur td hs ex cp ↔
      (r ∈ rotateFiltered cur ex ∨
        r ∈ rotateNewMonth cur td hs cp (rotateFiltered cur ex)) := by
  rw [rotateAvailabilityMonths_eq, List.mem_mergeSort, List.mem_append]

theorem mem_rotateNewMonth {cur : YMD} {td : TourData}
    {hs : List HighSeasonPeriod} {cp : List ClosedPeriod}
    {fl : List DayRecord} {r : DayRecord} :
    r ∈ rotateNewMonth cur td hs cp fl ↔
      ∃ d ∈ dayRange (futureMonthStart cur) (futureMonthEnd cur),
        fl.any (fun item => item.date == d) = false ∧
        r = mkDayRecord td hs cp d := by
  unfold rotateNewMonth
  rw [List.mem_filterMap]
  constructor
  · rintro ⟨d, hd, hf⟩
    by_cases hc : fl.any (fun item => item.date == d) = true
    · rw [if_pos hc] at hf
      cases hf
    · rw [if_neg hc] at hf
      refine ⟨d, hd, Bool.eq_false_iff.mpr hc, ?_⟩
      cases hf
      rfl
  · rintro ⟨d, hd, hany, rfl⟩
    refine ⟨d, hd, ?_⟩
    rw [if_neg (by rw [hany]; exact Bool.false_ne_true)]

theorem recordLe_trans (a b c : DayRecord)
    (h1 : YMD.le a.date b.date = true) (h2 : YMD.le b.date c.date = true) :
    YMD.le a.date c.date = true :=
  YMD.le_trans h1 h2

theorem recordLe_total (a b : DayRecord) :
    (YMD.le a.date b.date || YMD.le b.date a.date) = true :=
  YMD.le_total a.date b.date

/-- C2. Monthly rotation is idempotent for a fixed `currentDate`:
re-rotating an already-rotated record set removes nothing further (the
previous month is already gone) and adds nothing further (every future-month
date is already present), and re-sorting the sorted result is a no-op. -/
theorem rotateAvailabilityMonths_idempotent (currentDate : YMD)
    (tourData : TourData) (highSeasonPeriods : List HighSeasonPeriod)
    (existingData : List DayRecord) (closedPeriods : List ClosedPeriod)
    (hv : currentDate.valid) :
    rotateAvailabilityMonths currentDate tourData highSeasonPeriods
      (rotateAvailabilityMonths currentDate tourData highSeasonPeriods
        existingData closedPeriods) closedPeriods =
    rotateAvailabilityMonths currentDate tourData highSeasonPeriods
      existingData closedPeriods := by
  have hsorted : (rotateAvailabilityMonths currentDate tourData
      highSeasonPeriods existingData closedPeriods).Pairwise
      (fun a b => YMD.le a.date b.date = true) := by
    rw [rotateAvailabilityMonths_eq]
    exact List.sorted_mergeSort recordLe_trans recordLe_total _
  have hA : rotateFiltered currentDate (rotateAvailabilityMonths currentDate
      tourData highSeasonPeriods existingData closedPeriods) =
      rotateAvailabilityMonths currentDate tourData highSeasonPeriods
        existingData closedPeriods := by
    unfold rotateFiltered
    apply List.filter_eq_self.mpr
    intro r hr
    rw [Bool.not_eq_true']
    rcases mem_rotateAvailabilityMonths.mp hr with hrf | hrn
    · have hp := (List.mem_filter.mp hrf).2
      rw [Bool.not_eq_true'] at hp
      exact hp
    · rcases mem_rotateNewMonth.mp hrn with ⟨d, hd, hany, rfl⟩
      rw [mkDayRecord_date]
      by_contra hcon
      rw [Bool.not_eq_false] at hcon
      rw [prevMonthEnd_eq] at hcon
      have hchar := month_range_chars (prevMonthStart currentDate) _ d
        (prevMonthStart_day currentDate) hcon
      have hdm := (dayRange_mem (futureMonthStart_valid currentDate)
        (futureMonthEnd_valid currentDate) d).mp hd
      rw [futureMonthEnd_eq] at hdm
      have hchar2 := month_range_chars (futureMonthStart currentDate) _ d
        (futureMonthStart_day currentDate)
        (by rw [Bool.and_eq_true]; exact ⟨hdm.2.1, hdm.2.2⟩)
      exact futureMonth_ne_prevMonth currentDate hv
        ⟨hchar2.1 ▸ hchar.1, hchar2.2.1 ▸ hchar.2.1⟩
  have hB : ∀ d ∈ dayRange (futureMonthStart currentDate)
      (futureMonthEnd currentDate),
      (rotateAvailabilityMonths currentDate tourData highSeasonPeriods
        existingData closedPeriods).any (fun item => item.date == d) =
        true := by
    intro d hd
    by_cases hc : (rotateFiltered currentDate existingData).any
        (fun item => item.date == d) = true
    · rcases List.any_eq_true.mp hc with ⟨item, hitem, hbeq⟩
      exact List.any_eq_true.mpr
        ⟨item, mem_rotateAvailabilityMonths.mpr (Or.inl hitem), hbeq⟩
    · refine List.any_eq_true.mpr
        ⟨mkDayRecord tourData highSeasonPeriods closedPeriods d,
          mem_rotateAvailabilityMonths.mpr (Or.inr ?_), ?_⟩
      · exact mem_rotateNewMonth.mpr ⟨d, hd, Bool.eq_false_iff.mpr hc, rfl⟩
      · rw [mkDayRecord_date]
        exact beq_self_eq_true d
  have hC : rotateNewMonth currentDate tourData highSeasonPeriods
      closedPeriods (rotateFiltered currentDate
        (rotateAvailabilityMonths currentDate tourData highSeasonPeriods
          existingData closedPeriods)) = [] := by
    rw [hA]
    unfold rotateNewMonth
    apply List.filterMap_eq_nil_iff.mpr
    intro d hd
    rw [if_pos (hB d hd)]
  rw [rotateAvailabilityMonths_eq currentDate tourData highSeasonPeriods
    (rotateAvailabilityMonths currentDate tourData highSeasonPeriods
      existingData closedPeriods) closedPeriods]
  rw [hC, hA, List.append_nil]
  exact List.mergeSort_of_sorted hsorted

theorem rotateAvailabilityMonths_idempotent_witness :
    rotateAvailabilityMonths ⟨2024, 3, 15⟩ { dbId := "t" } []
      (rotateAvailabilityMonths ⟨2024, 3, 15⟩ { dbId := "t" } [] [] []) [] =
    rotateAvailabilityMonths ⟨2024, 3, 15⟩ { dbId := "t" } [] [] [] :=
  rotateAvailabilityMonths_idempotent ⟨2024, 3, 15⟩ { dbId := "t" } [] [] []
    (by decide)

/-- The tour used in the rotation scenario (operates Mondays and Wednesdays). -/
def tourC : TourData :=
  { dbId := "tour-scenario", runDays := some ["Monday", "Wednesday"] }

/-- Existing records spanning 2024-02-01 .. 2025-07-31 (one per day). -/
def existingC : List DayRecord :=
  generateAvailabilityData ⟨2024, 2, 1⟩ ⟨2025, 7, 31⟩ tourC [] []

/-- C3. Rotating on 2024-03-15 over records spanning
2024-02-01..2025-07-31 excludes every February-2024 record (the whole
previous month), contains a newly generated record for every day of
August 2025, retains every record dated 2024-03-01 or later unchanged, and
returns the array sorted ascending by date. -/
theorem rotate_scenario_march2024 :
    (∀ r ∈ rotateAvailabilityMonths ⟨2024, 3, 15⟩ tourC [] existingC [],
      ¬(r.date.year = 2024 ∧ r.date.month = 2)) ∧
    (∀ d : YMD, d.valid → d.year = 2025 → d.month = 8 →
      mkDayRecord tourC [] [] d ∈
        rotateAvailabilityMonths ⟨2024, 3, 15⟩ tourC [] existingC []) ∧
    (∀ r ∈ existingC, YMD.le ⟨2024, 3, 1⟩ r.date = true →
      r ∈ rotateAvailabilityMonths ⟨2024, 3, 15⟩ tourC [] existingC []) ∧
    (rotateAvailabilityMonths ⟨2024, 3, 15⟩ tourC [] existingC []).Pairwise
      (fun a b => YMD.le a.date b.date = true) := by
  have hpS : prevMonthStart ⟨2024, 3, 15⟩ = ⟨2024, 2, 1⟩ := by decide
  have hpE : prevMonthEnd ⟨2024, 3, 15⟩ = ⟨2024, 2, 29⟩ := by decide
  have hfS : futureMonthStart ⟨2024, 3, 15⟩ = ⟨2025, 8, 1⟩ := by decide
  have hfE : futureMonthEnd ⟨2024, 3, 15⟩ = ⟨2025, 8, 31⟩ := by decide
  refine ⟨?_, ?_, ?_, ?_⟩
  · intro r hr hcon
    rcases mem_rotateAvailabilityMonths.mp hr with hrf | hrn
    · have hex := List.mem_of_mem_filter hrf
      have hpred := (List.mem_filter.mp hrf).2
      rw [Bool.not_eq_true'] at hpred
      rcases mem_generateAvailabilityData.mp hex with ⟨d, hd, rfl⟩
      rw [mkDayRecord_date] at hcon hpred
      have hdv := ((dayRange_mem (by decide) (by decide) d).mp hd).1
      rw [hpS, hpE] at hpred
      rw [Bool.eq_false_iff] at hpred
      apply hpred
      rw [Bool.and_eq_true, YMD.le_iff, YMD.le_iff]
      obtain ⟨hm1, hm2, hd1, hd2⟩ := hdv
      rw [hcon.1, hcon.2] at hd2
      have h29 : daysInMonth 2024 2 = 29 := by decide
      rw [h29] at hd2
      dsimp only
      omega
    · rcases mem_rotateNewMonth.mp hrn with ⟨d, hd, hany, rfl⟩
      rw [mkDayRecord_date] at hcon
      have hdm := (dayRange_mem (futureMonthStart_valid _)
        (futureMonthEnd_valid _) d).mp hd
      rw [futureMonthEnd_eq] at hdm
      have hchar := month_range_chars (futureMonthStart ⟨2024, 3, 15⟩) _ d
        (futureMonthStart_day _)
        (by rw [Bool.and_eq_true]; exact ⟨hdm.2.1, hdm.2.2⟩)
      rw [hfS] at hchar
      dsimp only at hchar
      omega
  · intro d hdv hy hm
    apply mem_rotateAvailabilityMonths.mpr
    right
    apply mem_rotateNewMonth.mpr
    refine ⟨d, ?_, ?_, rfl⟩
    · apply (dayRange_mem (futureMonthStart_valid _)
        (futureMonthEnd_valid _) d).mpr
      obtain ⟨hm1, hm2, hd1, hd2⟩ := hdv
      refine ⟨⟨hm1, hm2, hd1, hd2⟩, ?_, ?_⟩
      · rw [hfS, YMD.le_iff]
        dsimp only
        omega
      · rw [hfE, YMD.le_iff]
        dsimp only
        have h31 : daysInMonth 2025 8 = 31 := by decide
        rw [hy, hm, h31] at hd2
        omega
    · apply List.any_eq_false.mpr
      intro item hitem
      have hex := List.mem_of_mem_filter hitem
      rcases mem_generateAvailabilityData.mp hex with ⟨d2, hd2mem, rfl⟩
      rw [mkDayRecord_date]
      simp only [beq_iff_eq]
      intro hcon
      subst hcon
      have hle := ((dayRange_mem (by decide) (by decide) d2).mp hd2mem).2.2
      rw [YMD.le_iff] at hle
      dsimp only at hle
      omega
  · intro r hr h31mar
    apply mem_rotateAvailabilityMonths.mpr
    left
    apply List.mem_filter.mpr
    refine ⟨hr, ?_⟩
    dsimp only
    rw [Bool.not_eq_true']
    rw [hpS, hpE]
    rw [Bool.eq_false_iff]
    intro hcon
    rw [Bool.and_eq_true] at hcon
    have hc2 := hcon.2
    rw [YMD.le_iff] at hc2 h31mar
    dsimp only at hc2 h31mar
    omega
  · rw [rotateAvailabilityMonths_eq]
    exact List.sorted_mergeSort recordLe_trans recordLe_total _

theorem rotate_scenario_march2024_witness :
    mkDayRecord tourC [] [] ⟨2025, 8, 15⟩ ∈
      rotateAvailabilityMonths ⟨2024, 3, 15⟩ tourC [] existingC [] :=
  rotate_scenario_march2024.2.1 ⟨2025, 8, 15⟩ (by decide) rfl rfl
